import Mathlib

/-!
# Verification of the Trae account-creation batch engine

A shallow embedding, in Lean 4, of the core logic of the repository:

* the batch scheduler `run_batch` (`register.py`): input validation, the
  sentinel-terminated work queue, the shared progress counter and callback;
* the per-account workflow `run_one` (`register.py`): the order of the
  persistence effects relative to the token-capture retry loop;
* the post-submit outcome of `_sign_up` (`register.py`);
* the response listener `_handle_response` (`register.py`), including the
  duplicated capture block present in the source;
* `generate_password` (`register.py`), parameterised by an explicit oracle for
  `secrets.choice` and by a shuffle permutation;
* the mail client (`src/mail_client.py`): `_verify_recipient`,
  `_extract_body`, `_process_email`, `check_emails`;
* the verification-code extractor (`src/parser.py`): the three regex pattern
  families as deterministic matchers, `finditer`-style scanning,
  `_calculate_confidence` over exact rationals, the stable descending sort of
  candidates, and `parse`.

Machine integers are modelled as `Int`/`Nat` (no overflow is relevant here);
Python float confidence arithmetic is modelled over `ℚ` (the computations only
involve the constants 0.8, 0.9, 0.1, 0.05, 1.0); fallible code is modelled with
`Except`/`Option`; the regex classes `\d`, `\s`, `\w` are modelled over their
ASCII meaning, which covers all inputs considered here.
-/

namespace Trae

/-! ## Generic character / string helpers -/

/-- ASCII reading of Python's `\s` class (also of `str.isspace` on ASCII):
space, tab, newline, carriage return, form feed, vertical tab. -/
def isPySpace (c : Char) : Bool :=
  c == ' ' || c == '\t' || c == '\n' || c == '\r' || c == '\x0c' || c == '\x0b'

/-- ASCII reading of Python's `\w` class: letters, digits, underscore. -/
def isWordChar (c : Char) : Bool :=
  c.isAlpha || c.isDigit || c == '_'

/-- `startsWithList n h` holds when `n` is an initial segment of `h`. -/
def startsWithList : List Char → List Char → Bool
  | [], _ => true
  | _ :: _, [] => false
  | a :: as, b :: bs => a == b && startsWithList as bs

/-- Python's substring test `needle in haystack` on character lists. -/
def substrIn (needle : List Char) : List Char → Bool
  | [] => startsWithList needle []
  | c :: rest => startsWithList needle (c :: rest) || substrIn needle rest

/-- Python's substring test `needle in haystack` on strings. -/
def strContains (needle haystack : String) : Bool :=
  substrIn needle.data haystack.data

/-- Python's `str.lower`, ASCII case folding. -/
def lowerStr (s : String) : String :=
  String.mk (s.data.map Char.toLower)

/-- Python's `s.isspace()`: non-empty and all whitespace. -/
def pyIsSpace (s : List Char) : Bool :=
  !s.isEmpty && s.all isPySpace

/-- Python slice `s[a:b]` on a character list (indices already clamped
to `ℕ`, as Python clamps slice bounds). -/
def slice (s : List Char) (a b : Nat) : List Char :=
  (s.take b).drop a

/-! ## Batch scheduler (`run_batch`, register.py lines 521–573)

`run_batch` validates its two counts, clamps the concurrency, fills an
`asyncio.Queue` with the indices `1..total` followed by one `None` sentinel per
worker, and spawns the workers.  Each worker loops: it dequeues an item,
returns on the sentinel, otherwise runs one registration workflow (failures
are caught and logged), and in a `finally` block — for real indices only —
increments the shared `completed` counter under `progress_lock` and invokes
the progress callback with `(completed, total)`.  After `queue.join()` and
`gather`, `run_batch` issues one final `progress_cb(total, total)`.

The queue guarantees each item is dequeued exactly once, and `progress_lock`
makes increment-plus-callback atomic, so a run of the batch is modelled by a
*processing order*: an arbitrary permutation of the queue contents.  Workflow
failure is modelled by an oracle `fails : ℕ → Bool`; per the source's
`try/except/finally`, it changes the logged event but not the accounting. -/

/-- The work queue built by `run_batch` after clamping: the indices
`1..total` in order, then one `none` sentinel per worker. -/
def buildQueue (total concurrency : Nat) : List (Option Nat) :=
  (List.range total).map (fun i => some (i + 1)) ++ List.replicate concurrency none

/-- Validation and queue construction of `run_batch` (the part that runs
before any worker is spawned).  Python ints are modelled by `Int`. -/
def run_batch_setup (total concurrency : Int) : Except String (List (Option Nat)) :=
  if total ≤ 0 then .error "Batch size must be greater than 0."
  else if concurrency ≤ 0 then .error "Concurrency must be greater than 0."
  else .ok (buildQueue total.toNat (min concurrency total).toNat)

/-- Observable events of a batch run: per-index workflow completion (success
or caught failure) and invocations of the progress callback. -/
inductive WorkEvent where
  | success (idx : Nat)
  | failure (idx : Nat)
  | progress (done : Nat) (total : Nat)
  deriving DecidableEq, Repr

/-- One worker loop iteration on one dequeued item, at counter value
`completed`: a sentinel produces nothing; a real index runs the workflow
(failure caught) and then, in the `finally` block, increments the counter and
fires the callback with the new value. -/
def stepWorker (fails : Nat → Bool) (total completed : Nat) :
    Option Nat → Nat × List WorkEvent
  | none => (completed, [])
  | some i =>
    (completed + 1,
      (if fails i then [WorkEvent.failure i] else [WorkEvent.success i])
        ++ [WorkEvent.progress (completed + 1) total])

/-- Event trace of the workers processing the queue items in the given
order, starting from counter value `completed`. -/
def runBatchTrace (fails : Nat → Bool) (total : Nat) :
    Nat → List (Option Nat) → List WorkEvent
  | _, [] => []
  | completed, item :: rest =>
    (stepWorker fails total completed item).2
      ++ runBatchTrace fails total (stepWorker fails total completed item).1 rest

/-- Full observable trace of `run_batch` for one processing order: the worker
trace from counter 0, then the final `progress_cb(total, total)` issued after
`queue.join()` and `gather`. -/
def runBatchEvents (fails : Nat → Bool) (total : Nat)
    (order : List (Option Nat)) : List WorkEvent :=
  runBatchTrace fails total 0 order ++ [WorkEvent.progress total total]

/-- The sequence of `done` values passed to the progress callback, in order. -/
def progressDones (events : List WorkEvent) : List Nat :=
  events.filterMap fun e =>
    match e with
    | WorkEvent.progress done _ => some done
    | _ => none

/-- Whether an event is the workflow-completion event (success or caught
failure) of index `i`. -/
def isRunEventOf (i : Nat) : WorkEvent → Bool
  | WorkEvent.success j => j == i
  | WorkEvent.failure j => j == i
  | WorkEvent.progress _ _ => false

/-! ## One workflow run (`TraeRegistrar.run_one`, register.py lines 419–518)

`run_one`'s persistence effects, in source order: generate the email (raise if
it fails); run `_sign_up` (may raise; nothing has been persisted yet); append
the email/password line to the credential log `accounts.txt` via
`save_account`; settle and run the token-capture retry loop (up to 3 page
refreshes); if the token response was never captured, raise
`RuntimeError("JWT token is required but could not be captured ...")`;
otherwise claim the gift (errors swallowed), write the legacy session file
(`cookies/<email>.json`) and the structured account file
(`accounts/<email>.json`).  The model records which sinks were written and
which error, if any, terminated the run, as a function of the three
outcome oracles. -/

/-- The three persistence sinks touched by `run_one`. -/
inductive Persist where
  | credentialLog
  | sessionFile
  | accountFile
  deriving DecidableEq, Repr

/-- The errors that can terminate `run_one`. -/
inductive RunOneError where
  | emailGenFailed
  | signupFailed
  | tokenCaptureFailed
  deriving DecidableEq, Repr

/-- Persistence trace and terminal error of one `run_one` call, given whether
email generation succeeds, whether `_sign_up` succeeds, and whether the token
response is ever captured (after the settle wait and all 3 refresh retries). -/
def run_one_trace (emailOk signupOk tokenCaptured : Bool) :
    List Persist × Option RunOneError :=
  if !emailOk then ([], some .emailGenFailed)
  else if !signupOk then ([], some .signupFailed)
  else if !tokenCaptured then ([Persist.credentialLog], some .tokenCaptureFailed)
  else ([Persist.credentialLog, Persist.sessionFile, Persist.accountFile], none)

/-! ## Post-submit outcome (`TraeRegistrar._sign_up`, register.py lines 401–417)

After clicking Sign Up, `_sign_up` waits for the URL to leave `/sign-up`
within the navigation timeout.  If the wait succeeds, the step succeeds.  On
timeout, it first checks whether any `.error-message` element exists
(`count() > 0` — existence, not visibility) and, if so, raises
`RuntimeError("Registration failed: <text>")`.  Otherwise it merely logs —
a warning plus a screenshot when the URL still matches `/sign-up`, an info
message otherwise — and returns normally. -/

/-- Result of the post-submit step. -/
inductive SignupOutcome where
  | ok
  | rejected (msg : String)
  deriving DecidableEq, Repr

/-- Post-submit control flow of `_sign_up`: `redirected` is whether the URL
left `/sign-up` within the timeout, `errorElem` the text of the first
`.error-message` element when one exists, `stillOnSignup` whether the URL
still matches `/sign-up` when re-read after the timeout. -/
def post_submit_outcome (redirected : Bool) (errorElem : Option String)
    (stillOnSignup : Bool) : SignupOutcome :=
  if redirected then .ok
  else
    match errorElem with
    | some t => .rejected ("Registration failed: " ++ t)
    | none =>
      -- logs a warning + screenshot when `stillOnSignup`, an info line
      -- otherwise; either way the step returns normally
      if stillOnSignup then .ok else .ok

/-! ## Response listener (`TraeRegistrar._handle_response`, register.py lines 256–304)

The handler stores the first response whose URL contains `GetUserToken`
(resp. `GetUserInfo`) into `_token_response_text`
(resp. `_user_info_response_text`), guarded by Python truthiness
(`not self._token_response_text`), i.e. the slot is considered unset while it
is `None` *or the empty string*.  The source duplicates the `GetUserToken`
block a second time at the end of the handler; the model mirrors that.
Removing and re-adding the listener (`run_one`'s retry loop) does not touch
the slots, so a sequence of responses is modelled by folding the handler. -/

/-- The two capture slots of a `TraeRegistrar`. -/
structure RegState where
  tokenText : Option String
  userInfoText : Option String
  deriving DecidableEq, Repr

/-- Python truthiness of a `str | None` attribute. -/
def strTruthy : Option String → Bool
  | none => false
  | some s => !s.isEmpty

/-- One invocation of `_handle_response` on a response with the given URL and
body (the `response.text()` read is modelled as succeeding). -/
def handle_response (st : RegState) (url body : String) : RegState :=
  let st1 :=
    if strContains "GetUserToken" url && !strTruthy st.tokenText then
      { st with tokenText := some body } else st
  let st2 :=
    if strContains "GetUserInfo" url && !strTruthy st1.userInfoText then
      { st1 with userInfoText := some body } else st1
  -- the source repeats the GetUserToken block once more (lines 288–304)
  if strContains "GetUserToken" url && !strTruthy st2.tokenText then
    { st2 with tokenText := some body } else st2

/-- The listener applied to a whole sequence of `(url, body)` responses. -/
def foldResponses (st : RegState) (resps : List (String × String)) : RegState :=
  resps.foldl (fun s p => handle_response s p.1 p.2) st

/-! ## `generate_password` (register.py lines 100–116)

`secrets.choice` is modelled by an oracle `choiceIdx : ℕ → ℕ` giving the index
chosen by the `k`-th call (reduced mod the pool size), and the final
`secrets.SystemRandom().shuffle` by an arbitrary permutation `shuffle`
(hypothesis: it permutes its input).  Python's `int` length is `Int`. -/

/-- `string.ascii_letters`. -/
def ascii_letters : List Char :=
  "abcdefghijklmnopqrstuvwxyzABCDEFGHIJKLMNOPQRSTUVWXYZ".data

/-- `string.digits`. -/
def ascii_digits : List Char := "0123456789".data

/-- The symbol set of `generate_password`. -/
def password_symbols : List Char := "!@#$%^&*".data

/-- `secrets.choice(pool)` with the oracle choosing index `idx`. -/
def secretsChoice (idx : Nat) (pool : List Char) : Char :=
  pool.getD (idx % pool.length) 'a'

/-- `generate_password(length)`: enforce minimum length 8, pick one required
letter / digit / symbol, fill the rest from the mixed pool, shuffle. -/
def generate_password (length : Int) (choiceIdx : Nat → Nat)
    (shuffle : List Char → List Char) : List Char :=
  let len : Int := if length < 8 then 8 else length
  let required : List Char :=
    [secretsChoice (choiceIdx 0) ascii_letters,
     secretsChoice (choiceIdx 1) ascii_digits,
     secretsChoice (choiceIdx 2) password_symbols]
  let remaining : Nat := (len - 3).toNat
  let pool : List Char := ascii_letters ++ ascii_digits ++ password_symbols
  shuffle (required ++ (List.range remaining).map
    (fun k => secretsChoice (choiceIdx (3 + k)) pool))

/-! ## Email messages (`src/mail_client.py`)

A `Message` is modelled by its header list plus its payload — either a single
part or a list of sub-parts (`is_multipart()`).  Decoded part payloads are
modelled directly as strings; the model assumes an identity transfer encoding,
so the raw serialisation `str(msg)` contains the same payload text.  Crucially,
Python's `str(msg)` (`Message.as_string`) renders the *entire* message —
header block, blank line, and body — not just the headers. -/

/-- One MIME part of a multipart message. -/
structure EmailPart where
  contentType : String
  contentDisposition : String
  payload : Option String
  deriving Repr

/-- Payload of a message: `single` when `is_multipart()` is false. -/
inductive MsgPayload where
  | single (payload : Option String)
  | multi (parts : List EmailPart)

/-- An email message: headers plus payload. -/
structure EmailMsg where
  headers : List (String × String)
  payload : MsgPayload

/-- `SEARCH_HEADERS` from `src/constants.py`. -/
def SEARCH_HEADERS : List String :=
  ["To", "X-Forwarded-To", "Delivered-To", "Cc"]

/-- `msg.get(name, '')`: first header with a case-insensitively matching
name, else the empty-string default. -/
def msgGet (msg : EmailMsg) (name : String) : String :=
  match msg.headers.find? (fun p => lowerStr p.1 == lowerStr name) with
  | some p => p.2
  | none => ""

/-- The serialised header block of the message. -/
def msgHeaderBlock (msg : EmailMsg) : String :=
  String.join (msg.headers.map (fun p => p.1 ++ ": " ++ p.2 ++ "\n"))

/-- The raw payload text appearing in the serialisation. -/
def msgPayloadText (msg : EmailMsg) : String :=
  match msg.payload with
  | .single p => p.getD ""
  | .multi parts => String.join (parts.map (fun p => p.payload.getD ""))

/-- Python's `str(msg)` (`Message.as_string`): the whole message — header
block, separating blank line, body. -/
def msgAsString (msg : EmailMsg) : String :=
  msgHeaderBlock msg ++ "\n" ++ msgPayloadText msg

/-- `AsyncMailClient._verify_recipient`: accept when the address appears
case-insensitively in one of `SEARCH_HEADERS`, or failing that anywhere in
`str(msg)`; reject when no address was generated. -/
def verify_recipient (email_address : Option String) (msg : EmailMsg) : Bool :=
  match email_address with
  | none => false
  | some addr =>
    let emailLower := lowerStr addr
    if SEARCH_HEADERS.any (fun h =>
        let v := msgGet msg h
        !v.isEmpty && strContains emailLower (lowerStr v)) then
      true
    else
      strContains emailLower (lowerStr (msgAsString msg))

/-- The multipart walk of `_extract_body`: first part whose disposition does
not mention "attachment", whose content type is `text/plain` or `text/html`,
and whose decoded payload is non-empty. -/
def extractFromParts : List EmailPart → String
  | [] => ""
  | p :: rest =>
    if strContains "attachment" p.contentDisposition then extractFromParts rest
    else if p.contentType == "text/plain" || p.contentType == "text/html" then
      match p.payload with
      | some s => if s.isEmpty then extractFromParts rest else s
      | none => extractFromParts rest
    else extractFromParts rest

/-- `AsyncMailClient._extract_body`. -/
def extract_body (msg : EmailMsg) : String :=
  match msg.payload with
  | .multi parts => extractFromParts parts
  | .single p => p.getD ""

/-! ## Verification-code extraction (`src/parser.py`)

The three pattern families (`src/constants.py`), for expected code length `L`:

* continuous — `\b\d{L}\b`;
* spaced — `\b\d(?:\s+\d){L-1}\b`;
* dashed — `\b\d(?:-\d){L-1}\b`.

Each pattern is deterministic at a given start position: the lengths are
fixed except for the greedy `\s+` runs, and a greedy `\s+` followed by `\d`
can never succeed by backtracking (every shorter prefix of a whitespace run
is still followed by a whitespace character, not a digit), so it always
consumes the whole maximal whitespace run.  `finditer` semantics — scan left
to right, emit non-overlapping matches, resume after each match — is
implemented directly.  The `\b` conditions are implemented for matches that
start and end with a digit, which every match of these patterns does
(for `L ≥ 1`). -/

/-- `\b` on the left of a match starting with a digit: start of string or a
non-word character before it. -/
def boundaryBefore : Option Char → Bool
  | none => true
  | some c => !isWordChar c

/-- `\b` on the right of a match ending with a digit: end of string or a
non-word character after it. -/
def boundaryAfter : List Char → Bool
  | [] => true
  | c :: _ => !isWordChar c

/-- Consume exactly `n` digit characters; return them and the rest. -/
def takeDigits : Nat → List Char → Option (List Char × List Char)
  | 0, s => some ([], s)
  | _ + 1, [] => none
  | n + 1, c :: rest =>
    if c.isDigit then
      match takeDigits n rest with
      | some (ds, r) => some (c :: ds, r)
      | none => none
    else none

/-- `\b\d{L}\b` at the current position (`prev` is the character before it).
Returns the compacted code digits and the rest of the input after the
match. -/
def tryContinuous (L : Nat) (prev : Option Char) (s : List Char) :
    Option (List Char × List Char) :=
  if boundaryBefore prev then
    match takeDigits L s with
    | some (ds, rest) => if boundaryAfter rest then some (ds, rest) else none
    | none => none
  else none

/-- Consume `(\s+\d){n}` (called with `n ≥ 1`): `sp` counts the whitespace
characters consumed so far in the current separator run.  Returns the digits
and the rest. -/
def spacedRun : Nat → Nat → List Char → Option (List Char × List Char)
  | _, _, [] => none
  | n, sp, c :: rest =>
    if isPySpace c then spacedRun n (sp + 1) rest
    else if c.isDigit && sp != 0 then
      match n with
      | 0 => none
      | 1 => some ([c], rest)
      | m + 2 =>
        match spacedRun (m + 1) 0 rest with
        | some (ds, r) => some (c :: ds, r)
        | none => none
    else none

/-- `\b\d(?:\s+\d){L-1}\b` at the current position. -/
def trySpaced (L : Nat) (prev : Option Char) (s : List Char) :
    Option (List Char × List Char) :=
  if boundaryBefore prev then
    match s with
    | [] => none
    | c :: rest =>
      if c.isDigit then
        match L - 1 with
        | 0 => if boundaryAfter rest then some ([c], rest) else none
        | n + 1 =>
          match spacedRun (n + 1) 0 rest with
          | some (ds, r) => if boundaryAfter r then some (c :: ds, r) else none
          | none => none
      else none
  else none

/-- Consume `(-\d){n}`.  Returns the digits and the rest. -/
def dashedRun : Nat → List Char → Option (List Char × List Char)
  | 0, s => some ([], s)
  | n + 1, c :: d :: rest =>
    if c == '-' && d.isDigit then
      match dashedRun n rest with
      | some (ds, r) => some (d :: ds, r)
      | none => none
    else none
  | _ + 1, _ => none

/-- `\b\d(?:-\d){L-1}\b` at the current position. -/
def tryDashed (L : Nat) (prev : Option Char) (s : List Char) :
    Option (List Char × List Char) :=
  if boundaryBefore prev then
    match s with
    | [] => none
    | c :: rest =>
      if c.isDigit then
        match dashedRun (L - 1) rest with
        | some (ds, r) => if boundaryAfter r then some (c :: ds, r) else none
        | none => none
      else none
  else none

/-- `finditer`: try a match at each position, left to right; emit
`(start, code)` for each non-overlapping match and resume right after it.
(A match that consumes nothing is skipped over; for `L ≥ 1` every match of
the three patterns consumes at least one character.)  The `fuel` argument
makes the recursion structural; every step strictly shortens the input, so
`fuel = length` never runs out. -/
def finditerFuel (try_ : Option Char → List Char → Option (List Char × List Char)) :
    Nat → Option Char → Nat → List Char → List (Nat × List Char)
  | 0, _, _, _ => []
  | _ + 1, _, _, [] => []
  | fuel + 1, prev, pos, c :: rest =>
    match try_ prev (c :: rest) with
    | some (code, after) =>
      if after.length < (c :: rest).length then
        (pos, code) ::
          finditerFuel try_ fuel
            (((c :: rest).take ((c :: rest).length - after.length)).getLast?)
            (pos + ((c :: rest).length - after.length)) after
      else finditerFuel try_ fuel (some c) (pos + 1) rest
    | none => finditerFuel try_ fuel (some c) (pos + 1) rest

/-- `finditer` over a whole input. -/
def finditerAux (try_ : Option Char → List Char → Option (List Char × List Char))
    (prev : Option Char) (pos : Nat) (s : List Char) : List (Nat × List Char) :=
  finditerFuel try_ s.length prev pos s

/-- Pattern families. -/
inductive PatternType where
  | continuous
  | spaced
  | dashed
  deriving DecidableEq, Repr

/-- A scored candidate (`CodeCandidate` in the source).  Python float
confidence is modelled over `ℚ`. -/
structure CodeCandidate where
  code : String
  confidence : ℚ
  patternType : PatternType
  deriving DecidableEq, Repr

/-- The fixed keyword set of `_calculate_confidence`. -/
def confidenceKeywords : List String :=
  ["code", "verification", "verify", "otp", "pin", "token"]

/-- `VerificationCodeParser._calculate_confidence`: base 0.8 (continuous) or
0.9 (spaced/dashed); +0.1 if a keyword occurs in the lowered window
`context[max(0, pos-50) : pos+50]` (measured from the match *start*); +0.05
if `0 < pos`, `pos < len(context) - len(code)`, and each of the two-character
windows `context[pos-2 : pos]` and
`context[pos+len(code) : pos+len(code)+2]` contains a newline or is entirely
whitespace; finally `min(confidence, 1.0)`. -/
def calculate_confidence (code : String) (ptype : PatternType)
    (context : String) (position : Nat) : ℚ :=
  let ctx := context.data
  let base : ℚ := if ptype = PatternType.continuous then 8/10 else 9/10
  let localContext := (slice ctx (position - 50) (position + 50)).map Char.toLower
  let conf1 : ℚ :=
    if confidenceKeywords.any (fun kw => substrIn kw.data localContext) then
      base + 1/10
    else base
  let codeLen := code.length
  let conf2 : ℚ :=
    if position != 0 && position + codeLen < ctx.length then
      let before := slice ctx (position - 2) position
      let after := slice ctx (position + codeLen) (position + codeLen + 2)
      if (before.contains '\n' || pyIsSpace before)
          && (after.contains '\n' || pyIsSpace after) then
        conf1 + 1/20
      else conf1
    else conf1
  min conf2 1

/-- The keyword-bonus condition of `_calculate_confidence` as implemented:
some keyword occurs in the lowered window `context[max(0,pos-50) : pos+50]`
(a window measured from the match *start*, containing the match itself). -/
def keywordWindowHit (context : String) (position : Nat) : Bool :=
  confidenceKeywords.any fun kw =>
    substrIn kw.data ((slice context.data (position - 50) (position + 50)).map Char.toLower)

/-- The standalone-bonus condition of `_calculate_confidence` as
implemented: an interior position (`0 < pos` and
`pos < len(context) - len(code)`), and each of the two-character windows
`context[pos-2 : pos]` and `context[pos+len(code) : pos+len(code)+2]`
contains a newline or is entirely whitespace.  `codeLen` is the length of
the *compacted* code, so for spaced/dashed matches the after-window falls
inside the raw match. -/
def standaloneHit (context : String) (position codeLen : Nat) : Bool :=
  (position != 0 && position + codeLen < context.data.length)
  && (((slice context.data (position - 2) position).contains '\n'
        || pyIsSpace (slice context.data (position - 2) position))
      && ((slice context.data (position + codeLen) (position + codeLen + 2)).contains '\n'
        || pyIsSpace (slice context.data (position + codeLen) (position + codeLen + 2))))

/-- Base score by pattern family. -/
def baseConfidence : PatternType → ℚ
  | .continuous => 8/10
  | _ => 9/10

/-- The candidates of one pattern family, in left-to-right match order. -/
def scanFamily (try_ : Option Char → List Char → Option (List Char × List Char))
    (ptype : PatternType) (content : String) : List CodeCandidate :=
  (finditerAux try_ none 0 content.data).map fun pc =>
    { code := String.mk pc.2
      confidence := calculate_confidence (String.mk pc.2) ptype content pc.1
      patternType := ptype }

/-- All candidates in scan order: continuous, then spaced, then dashed, each
family left to right — the list built by `find_candidates` before sorting. -/
def scanCandidates (L : Nat) (content : String) : List CodeCandidate :=
  scanFamily (tryContinuous L) PatternType.continuous content
    ++ scanFamily (trySpaced L) PatternType.spaced content
    ++ scanFamily (tryDashed L) PatternType.dashed content

/-- The sort relation of `candidates.sort(key=λ c: c.confidence, reverse=True)`:
`a` may precede `b` when `a`'s confidence is at least `b`'s.  The Python sort
is stable, i.e. it is exactly the stable insertion sort under this relation. -/
def confGe (a b : CodeCandidate) : Prop := b.confidence ≤ a.confidence

instance : DecidableRel confGe := fun a b =>
  inferInstanceAs (Decidable (b.confidence ≤ a.confidence))

instance : IsTotal CodeCandidate confGe :=
  ⟨fun a b => le_total b.confidence a.confidence⟩

instance : IsTrans CodeCandidate confGe :=
  ⟨fun _ _ _ hab hbc => le_trans hbc hab⟩

/-- `VerificationCodeParser.find_candidates`: scan all three families, then
sort by confidence descending, stably. -/
def find_candidates (L : Nat) (content : String) : List CodeCandidate :=
  List.insertionSort confGe (scanCandidates L content)

/-- The scanner of `_clean_html`'s `re.sub(r'<[^>]+>', ' ', content)`:
`none` = outside any tag; `some buf` = a `<` was seen, `buf` holds the
characters after it so far.  A tag with at least one inner character is
replaced by one space; `<>` and an unterminated `<...` are left verbatim
(no later match can start inside them, since they contain no `>`). -/
def cleanHtmlGo : Option (List Char) → List Char → List Char
  | none, [] => []
  | none, c :: rest =>
    if c == '<' then cleanHtmlGo (some []) rest
    else c :: cleanHtmlGo none rest
  | some buf, [] => '<' :: buf
  | some buf, c :: rest =>
    if c == '>' then
      if buf.isEmpty then '<' :: '>' :: cleanHtmlGo none rest
      else ' ' :: cleanHtmlGo none rest
    else cleanHtmlGo (some (buf ++ [c])) rest

/-- `VerificationCodeParser._clean_html`. -/
def clean_html (content : String) : String :=
  String.mk (cleanHtmlGo none content.data)

/-- `VerificationCodeParser.parse`: clean HTML, find candidates, return the
code of the best one, or `none` when there are none. -/
def parse (L : Nat) (content : String) : Option String :=
  match find_candidates L (clean_html content) with
  | [] => none
  | c :: _ => some c.code

/-- Modelled from the wording of claim C7 (not from the code): the keyword
appears case-insensitively within a 50-character window on each side of the
match, i.e. in `context[max(0, pos-50) : pos+|code|+50]` lowered. -/
def claimedKeywordHit (context : String) (position codeLen : Nat) : Bool :=
  confidenceKeywords.any fun kw =>
    substrIn kw.data
      ((slice context.data (position - 50) (position + codeLen + 50)).map Char.toLower)

/-- Modelled from the wording of claim C7 (not from the code): the match is
immediately preceded and followed by a whitespace or newline character. -/
def claimedStandalone (context : String) (position codeLen : Nat) : Bool :=
  (match context.data.get? (position - 1) with
    | some c => position != 0 && isPySpace c
    | none => false)
  && (match context.data.get? (position + codeLen) with
    | some c => isPySpace c
    | none => false)

/-- Modelled from the wording of claim C7, for comparison with the source's
`calculate_confidence` (this definition follows the claim, not the code):
base 0.8 (continuous) or 0.9 (spaced/dashed); +0.1 for a keyword within a
50-character window on each side of the match; +0.05 for a visually
standalone match; capped at 1.0. -/
def claimed_confidence (code : String) (ptype : PatternType)
    (context : String) (position : Nat) : ℚ :=
  min (baseConfidence ptype
    + (if claimedKeywordHit context position code.length then (1 : ℚ)/10 else 0)
    + (if claimedStandalone context position code.length then (1 : ℚ)/20 else 0)) 1

/-! ## Mail client state machine (`AsyncMailClient.check_emails`, lines 119–151)

`check_emails` returns immediately (after a log warning) when no address has
been generated.  Otherwise everything — mailbox select, search, fetch,
`_process_email` — runs inside one `try` whose `except Exception` handler
only logs.  The IMAP connection is an external collaborator, modelled as an
oracle of `Except` results; the body is written in the `Except` monad and
`check_emails` catches any error it produces. -/

/-- Mutable state of the client relevant here. -/
structure ClientState where
  email_address : Option String
  last_verification_code : Option String

/-- `AsyncMailClient._process_email`: verify the recipient, extract the
body, parse a code, store it only when one is found (Python truthiness:
an empty code is not stored). -/
def process_email (L : Nat) (st : ClientState) (msg : EmailMsg) : ClientState :=
  if !verify_recipient st.email_address msg then st
  else
    match parse L (extract_body msg) with
    | some code =>
      if code.isEmpty then st
      else { st with last_verification_code := some code }
    | none => st

/-- Mailbox operations observable by the connection. -/
inductive MailAction where
  | select
  | search
  | fetch (id : Nat)
  deriving DecidableEq, Repr

/-- Oracle for the IMAP connection: each operation either raises (an
`Except.error`) or returns its result. -/
structure MailEnv where
  selectResult : Except String Unit
  searchResult : Except String (List Nat)
  fetchResult : Nat → Except String EmailMsg

/-- The body of `check_emails`'s `try` block: select the inbox, search,
return early when no ids, else fetch the latest id and process it. -/
def check_emails_body (L : Nat) (st : ClientState) (env : MailEnv) :
    Except String (ClientState × List MailAction) := do
  let _ ← env.selectResult
  let ids ← env.searchResult
  if ids.isEmpty then
    pure (st, [MailAction.select, MailAction.search])
  else
    match ids.getLast? with
    | some latest => do
      let msg ← env.fetchResult latest
      pure (process_email L st msg,
            [MailAction.select, MailAction.search, MailAction.fetch latest])
    | none => pure (st, [MailAction.select, MailAction.search])

/-- `AsyncMailClient.check_emails`: early return when no address was
generated; otherwise run the body and swallow any error it raises. -/
def check_emails (L : Nat) (st : ClientState) (env : MailEnv) :
    ClientState × List MailAction :=
  match st.email_address with
  | none => (st, [])
  | some _ =>
    match check_emails_body L st env with
    | .ok r => r
    | .error _ => (st, [])

/-! ## Concrete inputs used by the closed theorems below -/

/-- A plain-text message whose only mention of `target@example.com` is in the
message body (a body-quoted forward); the listed headers name a different
recipient. -/
def msgBodyOnly : EmailMsg :=
  { headers := [("To", "someoneelse@example.org"), ("Subject", "Trae verification")]
    payload := .single (some "Forwarded for target@example.com your code is 123456") }

/-- A connection oracle whose search raises. -/
def envBoom : MailEnv :=
  { selectResult := .ok ()
    searchResult := .error "boom"
    fetchResult := fun _ => .ok msgBodyOnly }

/-! # Theorems -/

/-! ## C2 — `run_batch` validation and queue construction -/

/-- C2: `run_batch` raises an input-validation error iff `total ≤ 0` or
`concurrency ≤ 0`, before any worker starts (the validation and queue
construction precede worker creation in the model by construction);
otherwise it clamps the concurrency to `min concurrency total` and builds a
queue holding exactly the indices `1..total` in order followed by exactly
that many sentinels. -/
theorem C2_run_batch_validation_and_queue (total concurrency : Int) :
    ((run_batch_setup total concurrency).isOk = true ↔ (0 < total ∧ 0 < concurrency))
    ∧ (0 < total → 0 < concurrency →
        run_batch_setup total concurrency
          = Except.ok ((List.range total.toNat).map (fun i => some (i + 1))
              ++ List.replicate (min concurrency total).toNat none)) := by
  constructor
  · unfold run_batch_setup
    split_ifs with h1 h2 <;> simp [Except.isOk, Except.toBool] <;> omega
  · intro h1 h2
    unfold run_batch_setup buildQueue
    rw [if_neg (by omega), if_neg (by omega)]

/-- Witness for C2 at `total = 3`, `concurrency = 5`: validation passes and
the queue is `1, 2, 3` followed by `min 5 3 = 3` sentinels. -/
theorem C2_witness :
    (run_batch_setup 3 5).isOk = true
    ∧ run_batch_setup 3 5
        = Except.ok [some 1, some 2, some 3, none, none, none] := by
  have h := C2_run_batch_validation_and_queue 3 5
  exact ⟨h.1.mpr ⟨by norm_num, by norm_num⟩, (h.2 (by norm_num) (by norm_num)).trans rfl⟩

/-! ## C4 — persistence on token-capture failure -/

/-- C4 counterexample: a run that reaches the token stage (email generation
and signup succeeded) and never captures the token terminates with the
token-capture error, yet the credential-log line *was* appended — refuting
"no line is appended to the credential log". -/
theorem C4_counterexample :
    (run_one_trace true true false).2 = some RunOneError.tokenCaptureFailed
    ∧ Persist.credentialLog ∈ (run_one_trace true true false).1 := by
  decide

/-- C4 amended: when the token response is never captured, the workflow
terminates with the token-capture error and neither the legacy session file
nor the structured account file is written for that identity — but the
credential-log line has already been appended (right after successful
signup, before token capture). -/
theorem C4_amended (emailOk signupOk : Bool) :
    Persist.sessionFile ∉ (run_one_trace emailOk signupOk false).1
    ∧ Persist.accountFile ∉ (run_one_trace emailOk signupOk false).1
    ∧ (run_one_trace emailOk signupOk false).2 ≠ none
    ∧ (emailOk = true → signupOk = true →
        (run_one_trace emailOk signupOk false).1 = [Persist.credentialLog]
        ∧ (run_one_trace emailOk signupOk false).2
            = some RunOneError.tokenCaptureFailed) := by
  revert emailOk signupOk
  decide

/-- Witness for C4 amended at `emailOk = signupOk = true`. -/
theorem C4_witness :
    Persist.sessionFile ∉ (run_one_trace true true false).1
    ∧ (run_one_trace true true false).1 = [Persist.credentialLog] := by
  have h := C4_amended true true
  exact ⟨h.1, (h.2.2.2 rfl rfl).1⟩

/-! ## C5 — post-submit failure handling -/

/-- C5 counterexample: with the URL still matching the signup path at the
navigation timeout and no inline error element, the step returns normally
(`ok`) — the workflow continues past this step while still on the signup
path, refuting "otherwise with a RegistrationTimeoutError; it never
continues past this step". -/
theorem C5_counterexample :
    post_submit_outcome false none true = SignupOutcome.ok := rfl

/-- C5 amended: on timeout, if an `.error-message` element *exists*
(existence, not visibility, is what the code checks), the step fails with an
error carrying its text; otherwise — even while still on the signup path —
it only logs and returns normally; there is no timeout-error path.  A
successful redirect always succeeds. -/
theorem C5_amended (t : String) (r s : Bool) :
    post_submit_outcome false (some t) s
        = SignupOutcome.rejected ("Registration failed: " ++ t)
    ∧ post_submit_outcome r none s = SignupOutcome.ok
    ∧ post_submit_outcome true (some t) s = SignupOutcome.ok := by
  refine ⟨rfl, ?_, rfl⟩
  cases r <;> cases s <;> rfl

/-! ## C8 — idempotency of the response listener -/

/-- The single-response step preserves each capture slot once that slot is
truthy (non-`None`, non-empty). -/
theorem handle_response_preserves (st : RegState) (url body : String) :
    (strTruthy st.tokenText = true →
      (handle_response st url body).tokenText = st.tokenText)
    ∧ (strTruthy st.userInfoText = true →
      (handle_response st url body).userInfoText = st.userInfoText) := by
  unfold handle_response
  refine ⟨fun htok => ?_, fun hinfo => ?_⟩ <;>
    · simp_all
      repeat' split
      all_goals simp_all

/-- C8 counterexample: a first `GetUserToken` response with an *empty* body
is stored, and a later response matching the same URL pattern overwrites it —
the truthiness guard (`not self._token_response_text`) treats the stored
empty string as unset, refuting "once the response handler has stored a
response body, every later matching response is ignored". -/
theorem C8_counterexample :
    (handle_response { tokenText := none, userInfoText := none }
        "https://api.trae.ai/GetUserToken" "").tokenText = some ""
    ∧ (handle_response
        (handle_response { tokenText := none, userInfoText := none }
          "https://api.trae.ai/GetUserToken" "")
        "https://api.trae.ai/GetUserToken" "second").tokenText
      = some "second" := by
  constructor <;> rfl

/-- C8 amended: once a *non-empty* response body has been stored for
`GetUserToken` (resp. `GetUserInfo`), every later response — over any
sequence of responses, however often the listener was re-armed (re-arming
does not touch the slots) — leaves the stored value unchanged. -/
theorem C8_amended (st : RegState) (resps : List (String × String)) :
    (strTruthy st.tokenText = true →
      (foldResponses st resps).tokenText = st.tokenText)
    ∧ (strTruthy st.userInfoText = true →
      (foldResponses st resps).userInfoText = st.userInfoText) := by
  induction resps generalizing st with
  | nil => exact ⟨fun _ => rfl, fun _ => rfl⟩
  | cons p rest ih =>
    constructor
    · intro htok
      have h1 := (handle_response_preserves st p.1 p.2).1 htok
      have h2 := (ih (handle_response st p.1 p.2)).1 (by rw [h1]; exact htok)
      calc (foldResponses (handle_response st p.1 p.2) rest).tokenText
          = (handle_response st p.1 p.2).tokenText := h2
        _ = st.tokenText := h1
    · intro hinfo
      have h1 := (handle_response_preserves st p.1 p.2).2 hinfo
      have h2 := (ih (handle_response st p.1 p.2)).2 (by rw [h1]; exact hinfo)
      calc (foldResponses (handle_response st p.1 p.2) rest).userInfoText
          = (handle_response st p.1 p.2).userInfoText := h2
        _ = st.userInfoText := h1

/-- Witness for C8 amended: with both slots already holding non-empty
bodies, a further matching response sequence changes neither. -/
theorem C8_witness :
    (foldResponses { tokenText := some "tok", userInfoText := some "info" }
        [("https://api.trae.ai/GetUserToken", "x"),
         ("https://api.trae.ai/GetUserInfo", "y")]).tokenText = some "tok"
    ∧ (foldResponses { tokenText := some "tok", userInfoText := some "info" }
        [("https://api.trae.ai/GetUserToken", "x"),
         ("https://api.trae.ai/GetUserInfo", "y")]).userInfoText = some "info" := by
  have h := C8_amended { tokenText := some "tok", userInfoText := some "info" }
    [("https://api.trae.ai/GetUserToken", "x"), ("https://api.trae.ai/GetUserInfo", "y")]
  exact ⟨h.1 rfl, h.2 rfl⟩

/-! ## C9 — `generate_password` -/

/-- `secrets.choice` returns an element of a non-empty pool. -/
theorem secretsChoice_mem (idx : Nat) (pool : List Char) (h : pool ≠ []) :
    secretsChoice idx pool ∈ pool := by
  unfold secretsChoice
  have hlen : 0 < pool.length := List.length_pos.mpr h
  have hmod : idx % pool.length < pool.length := Nat.mod_lt _ hlen
  rw [List.getD_eq_getElem?_getD, List.getElem?_eq_getElem hmod, Option.getD_some]
  exact List.getElem_mem hmod

/-- C9: for every requested length and every behaviour of `secrets.choice`
and of the final shuffle (any permutation), the password contains at least
one letter, one digit and one symbol from `"!@#$%^&*"`, draws all characters
from those three pools, and has the requested length when it is ≥ 8 and
length 8 otherwise. -/
theorem C9_generate_password (length : Int) (choiceIdx : Nat → Nat)
    (shuffle : List Char → List Char) (hshuffle : ∀ l, (shuffle l).Perm l) :
    (∃ c ∈ generate_password length choiceIdx shuffle, c ∈ ascii_letters)
    ∧ (∃ c ∈ generate_password length choiceIdx shuffle, c ∈ ascii_digits)
    ∧ (∃ c ∈ generate_password length choiceIdx shuffle, c ∈ password_symbols)
    ∧ (∀ c ∈ generate_password length choiceIdx shuffle,
        c ∈ ascii_letters ++ ascii_digits ++ password_symbols)
    ∧ (generate_password length choiceIdx shuffle).length
        = (if length < 8 then (8 : Int) else length).toNat := by
  unfold generate_password
  have hperm := hshuffle
    ([secretsChoice (choiceIdx 0) ascii_letters,
      secretsChoice (choiceIdx 1) ascii_digits,
      secretsChoice (choiceIdx 2) password_symbols]
      ++ (List.range ((if length < 8 then (8 : Int) else length) - 3).toNat).map
        (fun k => secretsChoice (choiceIdx (3 + k))
          (ascii_letters ++ ascii_digits ++ password_symbols)))
  refine ⟨?_, ?_, ?_, ?_, ?_⟩
  · exact ⟨secretsChoice (choiceIdx 0) ascii_letters,
      hperm.mem_iff.mpr (List.mem_append_left _ (by simp)),
      secretsChoice_mem _ _ (by decide)⟩
  · exact ⟨secretsChoice (choiceIdx 1) ascii_digits,
      hperm.mem_iff.mpr (List.mem_append_left _ (by simp)),
      secretsChoice_mem _ _ (by decide)⟩
  · exact ⟨secretsChoice (choiceIdx 2) password_symbols,
      hperm.mem_iff.mpr (List.mem_append_left _ (by simp)),
      secretsChoice_mem _ _ (by decide)⟩
  · intro c hc
    rcases List.mem_append.mp (hperm.mem_iff.mp hc) with hreq | hrest
    · rcases hreq with _ | ⟨_, _ | ⟨_, _ | ⟨_, h⟩⟩⟩
      · exact List.mem_append_left _
          (List.mem_append_left _ (secretsChoice_mem _ _ (by decide)))
      · exact List.mem_append_left _
          (List.mem_append_right _ (secretsChoice_mem _ _ (by decide)))
      · exact List.mem_append_right _ (secretsChoice_mem _ _ (by decide))
      · cases h
    · rcases List.mem_map.mp hrest with ⟨k, _, hk⟩
      rw [← hk]
      exact secretsChoice_mem _ _ (by decide)
  · rw [hperm.length_eq]
    simp only [List.length_append, List.length_cons, List.length_map,
      List.length_range, List.length_nil]
    split <;> omega

/-- Witness for C9 at `length = 3` (clamped to 8), index oracle constantly
0, identity shuffle. -/
theorem C9_witness :
    (∃ c ∈ generate_password 3 (fun _ => 0) id, c ∈ ascii_letters)
    ∧ (∃ c ∈ generate_password 3 (fun _ => 0) id, c ∈ ascii_digits)
    ∧ (∃ c ∈ generate_password 3 (fun _ => 0) id, c ∈ password_symbols)
    ∧ (∀ c ∈ generate_password 3 (fun _ => 0) id,
        c ∈ ascii_letters ++ ascii_digits ++ password_symbols)
    ∧ (generate_password 3 (fun _ => 0) id).length
        = (if (3 : Int) < 8 then (8 : Int) else 3).toNat :=
  C9_generate_password 3 (fun _ => 0) id (fun l => List.Perm.refl l)

/-! ## C10 — `check_emails` total-failure behaviour -/

/-- C10: with no generated address, `check_emails` returns at once with no
mailbox action and the state unchanged; and whenever the body of its `try`
block raises, the error is swallowed and the state is returned unchanged
(the model's `check_emails` is a total function — it never raises). -/
theorem C10_check_emails (L : Nat) (st : ClientState) (env : MailEnv) :
    (st.email_address = none → check_emails L st env = (st, []))
    ∧ (∀ err, check_emails_body L st env = Except.error err →
        check_emails L st env = (st, [])) := by
  constructor
  · intro h
    unfold check_emails
    rw [h]
  · intro err herr
    unfold check_emails
    cases haddr : st.email_address with
    | none => rfl
    | some a => rw [herr]

/-- Witness for C10: a client with no address, and a client whose mailbox
search raises; in both cases the state is unchanged and no code stored. -/
theorem C10_witness :
    check_emails 6 { email_address := none, last_verification_code := none } envBoom
      = ({ email_address := none, last_verification_code := none }, [])
    ∧ check_emails 6
        { email_address := some "target@example.com", last_verification_code := none }
        envBoom
      = ({ email_address := some "target@example.com",
           last_verification_code := none }, []) :=
  ⟨(C10_check_emails 6 _ envBoom).1 rfl,
   (C10_check_emails 6 _ envBoom).2 "boom" rfl⟩

/-! ## C1 — batch progress accounting -/

theorem progressDones_append (a b : List WorkEvent) :
    progressDones (a ++ b) = progressDones a ++ progressDones b := by
  simp [progressDones, List.filterMap_append]

/-- The `done` values emitted while processing a list of queue items,
starting from counter value `completed`, are exactly the consecutive
naturals counting the real (`some`) items. -/
theorem progressDones_runBatchTrace (fails : Nat → Bool) (total : Nat)
    (order : List (Option Nat)) :
    ∀ completed, progressDones (runBatchTrace fails total completed order)
      = List.range' (completed + 1) (order.countP (fun o => o.isSome)) := by
  induction order with
  | nil => intro c; simp [runBatchTrace, progressDones]
  | cons item rest ih =>
    intro c
    cases item with
    | none =>
      simp only [runBatchTrace, stepWorker, List.nil_append]
      rw [ih c]
      simp [List.countP_cons]
    | some i =>
      simp only [runBatchTrace, stepWorker]
      rw [progressDones_append, ih (c + 1)]
      have hdones : progressDones
          ((if fails i then [WorkEvent.failure i] else [WorkEvent.success i])
            ++ [WorkEvent.progress (c + 1) total]) = [c + 1] := by
        cases h : fails i <;> simp [h, progressDones]
      rw [hdones, List.countP_cons]
      simp [List.range'_succ]

/-- The queue holds exactly `total` real items. -/
theorem countP_isSome_buildQueue (total concurrency : Nat) :
    (buildQueue total concurrency).countP (fun o => o.isSome) = total := by
  unfold buildQueue
  rw [List.countP_append, List.countP_map]
  have h1 : ((List.range total).countP ((fun o => Option.isSome o) ∘ fun i => some (i + 1)))
      = total := by
    have hf : ((fun (o : Option Nat) => o.isSome) ∘ fun i => some (i + 1))
        = fun _ => true := by
      funext k; rfl
    rw [hf, List.countP_true, List.length_range]
  have h2 : ((List.replicate concurrency (none : Option Nat)).countP
      (fun o => o.isSome)) = 0 := by
    apply List.countP_eq_zero.mpr
    intro a ha
    rw [List.eq_of_mem_replicate ha]
    simp
  rw [h1, h2]
  omega

/-- Per-index accounting: the trace contains one workflow-completion event
per occurrence of that index in the processed items. -/
theorem countP_run_runBatchTrace (fails : Nat → Bool) (total i : Nat)
    (order : List (Option Nat)) :
    ∀ completed, (runBatchTrace fails total completed order).countP (isRunEventOf i)
      = order.countP (fun o => o == some i) := by
  induction order with
  | nil => intro c; simp [runBatchTrace]
  | cons item rest ih =>
    intro c
    cases item with
    | none =>
      simp only [runBatchTrace, stepWorker, List.nil_append]
      rw [ih c, List.countP_cons]
      simp
    | some j =>
      simp only [runBatchTrace, stepWorker]
      rw [List.countP_append, ih (c + 1), List.countP_cons]
      have hev : ((if fails j then [WorkEvent.failure j] else [WorkEvent.success j])
          ++ [WorkEvent.progress (c + 1) total]).countP (isRunEventOf i)
          = if (some j == some i) = true then 1 else 0 := by
        cases h : fails j <;> cases hji : (j == i) <;>
          simp [h, isRunEventOf, hji, List.countP_cons]
      rw [hev]
      omega

/-- Each index `1 ≤ i ≤ total` occurs exactly once in the queue. -/
theorem countP_eq_one_buildQueue (total concurrency i : Nat)
    (h1 : 1 ≤ i) (h2 : i ≤ total) :
    (buildQueue total concurrency).countP (fun o => o == some i) = 1 := by
  unfold buildQueue
  rw [List.countP_append, List.countP_map]
  have hrep : ((List.replicate concurrency (none : Option Nat)).countP
      (fun o => o == some i)) = 0 := by
    apply List.countP_eq_zero.mpr
    intro a ha
    rw [List.eq_of_mem_replicate ha]
    simp
  have hfun : ((fun o => o == some i) ∘ fun k => some (k + 1))
      = (fun k => k == i - 1) := by
    funext k
    by_cases h : k + 1 = i
    · have hk : k = i - 1 := by omega
      rw [hk]
      have hi : i - 1 + 1 = i := by omega
      simp [Function.comp, hi]
    · have hk : k ≠ i - 1 := by omega
      simp [Function.comp, h, hk]
  rw [hfun, hrep]
  have : (List.range total).countP (fun k => k == i - 1)
      = List.count (i - 1) (List.range total) := rfl
  rw [this, List.count_eq_one_of_mem (List.nodup_range total)
    (List.mem_range.mpr (by omega))]

/-- An ascending run followed by an upper bound is a `≤`-chain. -/
theorem chain'_le_range'_append (m : Nat) :
    ∀ (n s : Nat), (∀ k ∈ List.range' s n, k ≤ m) →
      List.Chain' (· ≤ ·) (List.range' s n ++ [m]) := by
  intro n
  induction n with
  | zero => intro s _; simp
  | succ n ih =>
    intro s hle
    rw [List.range'_succ, List.cons_append, List.chain'_cons']
    refine ⟨?_, ih (s + 1) fun k hk => hle k ?_⟩
    · intro y hy
      cases n with
      | zero =>
        simp only [List.range'] at hy
        simp only [List.nil_append, List.head?_cons, Option.mem_def,
          Option.some.injEq] at hy
        subst hy
        exact hle s (by rw [List.range'_succ]; exact List.mem_cons_self _ _)
      | succ n' =>
        rw [List.range'_succ, List.cons_append, List.head?_cons,
          Option.mem_def, Option.some.injEq] at hy
        omega
    · rw [List.range'_succ]
      exact List.mem_cons_of_mem _ hk

/-- C1: for positive `total` and `concurrency` and any processing order of
the queue (any interleaving of the workers — each queue item is dequeued
exactly once, and increment-plus-callback is atomic under the progress
lock), the callback receives exactly the `done` values `1, 2, …, total`
followed by the final `total`: monotonically non-decreasing, never exceeding
`total`, incremented exactly once per real index — whether its workflow
succeeded or raised — and the final callback `(total, total)` is the last
event, so the caller always observes `(total, total)`. -/
theorem C1_run_batch_progress (total concurrency : Nat) (fails : Nat → Bool)
    (order : List (Option Nat)) (htotal : 0 < total) (hconc : 0 < concurrency)
    (horder : order.Perm (buildQueue total (min concurrency total))) :
    progressDones (runBatchEvents fails total order)
        = List.range' 1 total ++ [total]
    ∧ (progressDones (runBatchEvents fails total order)).Chain' (· ≤ ·)
    ∧ (∀ d ∈ progressDones (runBatchEvents fails total order), d ≤ total)
    ∧ (runBatchEvents fails total order).getLast?
        = some (WorkEvent.progress total total)
    ∧ (∀ i, 1 ≤ i → i ≤ total →
        (runBatchEvents fails total order).countP (isRunEventOf i) = 1) := by
  have hcount : order.countP (fun o => o.isSome) = total := by
    rw [horder.countP_eq, countP_isSome_buildQueue]
  have hkey : progressDones (runBatchEvents fails total order)
      = List.range' 1 total ++ [total] := by
    unfold runBatchEvents
    rw [progressDones_append, progressDones_runBatchTrace fails total order 0, hcount]
    rfl
  refine ⟨hkey, ?_, ?_, ?_, ?_⟩
  · rw [hkey]
    exact chain'_le_range'_append total total 1
      (fun k hk => by have := List.mem_range'_1.mp hk; omega)
  · intro d hd
    rw [hkey] at hd
    rcases List.mem_append.mp hd with h | h
    · have := List.mem_range'_1.mp h; omega
    · simp only [List.mem_singleton] at h; omega
  · unfold runBatchEvents
    exact List.getLast?_concat _
  · intro i hi1 hi2
    unfold runBatchEvents
    rw [List.countP_append, countP_run_runBatchTrace fails total i order 0,
      horder.countP_eq, countP_eq_one_buildQueue total _ i hi1 hi2]
    simp [isRunEventOf]

/-- Witness for C1 at `total = 3`, `concurrency = 2`, with the workflow of
index 2 failing, and a processing order interleaving the two workers. -/
theorem C1_witness :
    progressDones (runBatchEvents (fun i => i == 2) 3
        [some 2, some 1, none, some 3, none])
      = List.range' 1 3 ++ [3] := by
  have horder : [some 2, some 1, none, some 3, none].Perm
      (buildQueue 3 (min 2 3)) := by decide
  exact (C1_run_batch_progress 3 2 (fun i => i == 2)
    [some 2, some 1, none, some 3, none] (by norm_num) (by norm_num) horder).1

/-! ## C3 — recipient verification and the raw-serialisation fallback -/

/-- C3 (code bug): evaluating the code at the failing input.  For a message
whose listed headers (`To`, `X-Forwarded-To`, `Delivered-To`, `Cc`) do not
mention the target address, whose raw *header block* does not mention it
either, and whose only mention is inside the body, `_verify_recipient`
nevertheless returns `True` — because the fallback checks `str(msg)`, which
serialises the entire message including the body, not just the header block —
and a verification code *is* then extracted from that message. -/
theorem C3_code_eval :
    verify_recipient (some "target@example.com") msgBodyOnly = true
    ∧ (SEARCH_HEADERS.all fun h =>
        !(strContains (lowerStr "target@example.com")
          (lowerStr (msgGet msgBodyOnly h)))) = true
    ∧ strContains (lowerStr "target@example.com")
        (lowerStr (msgHeaderBlock msgBodyOnly)) = false
    ∧ strContains (lowerStr "target@example.com")
        (lowerStr (msgPayloadText msgBodyOnly)) = true
    ∧ (process_email 6
        { email_address := some "target@example.com", last_verification_code := none }
        msgBodyOnly).last_verification_code = some "123456" := by
  exact ⟨rfl, rfl, rfl, rfl, rfl⟩

/-! ## C6 — candidate ordering and selection -/

/-- Inserting a candidate leaves the equal-confidence sublist as the
candidate appended in front of the existing equal-confidence elements it
precedes — the filter characterisation of stability, for `orderedInsert`. -/
theorem filter_orderedInsert_conf (q : ℚ) (c : CodeCandidate) (l : List CodeCandidate) :
    (List.orderedInsert confGe c l).filter (fun d => decide (d.confidence = q))
      = if c.confidence = q then
          c :: l.filter (fun d => decide (d.confidence = q))
        else l.filter (fun d => decide (d.confidence = q)) := by
  induction l with
  | nil =>
    simp only [List.orderedInsert, List.filter]
    split_ifs with h <;> simp [h]
  | cons d t ih =>
    by_cases hcd : confGe c d
    · rw [List.orderedInsert_of_le confGe t hcd]
      by_cases hc : c.confidence = q <;> by_cases hd : d.confidence = q <;>
        simp [List.filter_cons, hc, hd]
    · rw [show List.orderedInsert confGe c (d :: t)
          = d :: List.orderedInsert confGe c t from by
        simp [List.orderedInsert, hcd]]
      by_cases hc : c.confidence = q <;> by_cases hd : d.confidence = q
      · exact absurd (show confGe c d by unfold confGe; rw [hc, hd]) hcd
      · simp [List.filter_cons, hc, hd, ih]
      · simp [List.filter_cons, hc, hd, ih]
      · simp [List.filter_cons, hc, hd, ih]

/-- Stability of the full sort: for every confidence value, the sorted list
keeps the equal-confidence candidates in their original (scan) order. -/
theorem filter_insertionSort_conf (q : ℚ) (l : List CodeCandidate) :
    (List.insertionSort confGe l).filter (fun d => decide (d.confidence = q))
      = l.filter (fun d => decide (d.confidence = q)) := by
  induction l with
  | nil => rfl
  | cons x xs ih =>
    rw [List.insertionSort, filter_orderedInsert_conf]
    by_cases hx : x.confidence = q <;> simp [List.filter_cons, hx, ih]

/-- For `L ≥ 1`, no pattern family can match at a non-digit character. -/
theorem try_head_digit (L : Nat) (hL : 1 ≤ L) (prev : Option Char) (c : Char)
    (rest : List Char) (hc : c.isDigit = false) :
    tryContinuous L prev (c :: rest) = none
    ∧ trySpaced L prev (c :: rest) = none
    ∧ tryDashed L prev (c :: rest) = none := by
  obtain ⟨L', rfl⟩ : ∃ L', L = L' + 1 := ⟨L - 1, by omega⟩
  refine ⟨?_, ?_, ?_⟩
  · unfold tryContinuous
    split
    · simp [takeDigits, hc]
    · rfl
  · unfold trySpaced
    split
    · simp [hc]
    · rfl
  · unfold tryDashed
    split
    · simp [hc]
    · rfl

/-- `finditer` finds nothing in digit-free text (for a matcher that needs a
digit at the match head). -/
theorem finditerFuel_nil_of_no_digit
    (try_ : Option Char → List Char → Option (List Char × List Char))
    (htry : ∀ prev (c : Char) (rest : List Char), c.isDigit = false →
      try_ prev (c :: rest) = none) :
    ∀ (fuel : Nat) (s : List Char) (prev : Option Char) (pos : Nat),
      (∀ c ∈ s, c.isDigit = false) → finditerFuel try_ fuel prev pos s = [] := by
  intro fuel
  induction fuel with
  | zero => intro s prev pos _; rfl
  | succ fuel ih =>
    intro s prev pos hnd
    cases s with
    | nil => rfl
    | cons c rest =>
      have hc : c.isDigit = false := hnd c (List.mem_cons_self _ _)
      have hstep : finditerFuel try_ (fuel + 1) prev pos (c :: rest)
          = finditerFuel try_ fuel (some c) (pos + 1) rest := by
        conv_lhs => rw [finditerFuel]
        rw [htry prev c rest hc]
      rw [hstep]
      exact ih rest (some c) (pos + 1) fun d hd => hnd d (List.mem_cons_of_mem _ hd)

/-- `finditer` over a whole digit-free input finds nothing. -/
theorem finditerAux_nil_of_no_digit
    (try_ : Option Char → List Char → Option (List Char × List Char))
    (htry : ∀ prev (c : Char) (rest : List Char), c.isDigit = false →
      try_ prev (c :: rest) = none)
    (s : List Char) (prev : Option Char) (pos : Nat)
    (h : ∀ c ∈ s, c.isDigit = false) : finditerAux try_ prev pos s = [] :=
  finditerFuel_nil_of_no_digit try_ htry s.length s prev pos h

/-- Digit-free text yields no candidates at all. -/
theorem scanCandidates_nil_of_no_digit (L : Nat) (hL : 1 ≤ L) (content : String)
    (h : ∀ c ∈ content.data, c.isDigit = false) :
    scanCandidates L content = [] := by
  unfold scanCandidates scanFamily
  rw [finditerAux_nil_of_no_digit _
        (fun prev c rest hc => (try_head_digit L hL prev c rest hc).1)
        content.data none 0 h,
      finditerAux_nil_of_no_digit _
        (fun prev c rest hc => (try_head_digit L hL prev c rest hc).2.1)
        content.data none 0 h,
      finditerAux_nil_of_no_digit _
        (fun prev c rest hc => (try_head_digit L hL prev c rest hc).2.2)
        content.data none 0 h]
  rfl

/-- HTML stripping introduces no digits: every character of the cleaned text
is a space, an angle bracket, or a character of the input (or of the pending
tag buffer). -/
theorem cleanHtmlGo_no_digit :
    ∀ (s : List Char) (buf : Option (List Char)),
      (∀ c ∈ s, c.isDigit = false) →
      (∀ bs, buf = some bs → ∀ c ∈ bs, c.isDigit = false) →
      ∀ c ∈ cleanHtmlGo buf s, c.isDigit = false := by
  intro s
  induction s with
  | nil =>
    intro buf _ hbuf c hc
    cases buf with
    | none => cases hc
    | some bs =>
      simp only [cleanHtmlGo] at hc
      rcases List.mem_cons.mp hc with rfl | h
      · rfl
      · exact hbuf bs rfl c h
  | cons a rest ih =>
    intro buf hs hbuf c hc
    have ha : a.isDigit = false := hs a (List.mem_cons_self _ _)
    have hrest : ∀ d ∈ rest, d.isDigit = false :=
      fun d hd => hs d (List.mem_cons_of_mem _ hd)
    cases buf with
    | none =>
      simp only [cleanHtmlGo] at hc
      split at hc
      · exact ih (some []) hrest (by intro bs hbs d hd; cases hbs; cases hd) c hc
      · rcases List.mem_cons.mp hc with rfl | h
        · exact ha
        · exact ih none hrest (by intro bs hbs; cases hbs) c h
    | some bs =>
      have hbs : ∀ d ∈ bs, d.isDigit = false := hbuf bs rfl
      simp only [cleanHtmlGo] at hc
      split at hc
      · split at hc
        · rcases List.mem_cons.mp hc with rfl | h
          · rfl
          · rcases List.mem_cons.mp h with rfl | h2
            · rfl
            · exact ih none hrest (by intro bs' hbs'; cases hbs') c h2
        · rcases List.mem_cons.mp hc with rfl | h
          · rfl
          · exact ih none hrest (by intro bs' hbs'; cases hbs') c h
      · refine ih (some (bs ++ [a])) hrest ?_ c hc
        intro bs' hbs' d hd
        cases hbs'
        rcases List.mem_append.mp hd with h1 | h1
        · exact hbs d h1
        · rcases List.mem_singleton.mp h1 with rfl
          exact ha

/-- `_clean_html` of digit-free text is digit-free. -/
theorem clean_html_no_digit (content : String)
    (h : ∀ c ∈ content.data, c.isDigit = false) :
    ∀ c ∈ (clean_html content).data, c.isDigit = false := by
  intro c hc
  exact cleanHtmlGo_no_digit content.data none h (by intro bs hbs; cases hbs) c hc

/-- C6: `find_candidates` returns exactly the scan-order candidates
(continuous, then spaced, then dashed, each family left to right) sorted by
confidence descending — a permutation of the scan list, pairwise
non-increasing in confidence, and stable (for every confidence value the
equal-confidence candidates appear in scan order); `parse` returns the code
of the first candidate of the list computed on the HTML-cleaned content, and
`none` when there are none; empty or digit-free input yields no candidates
and `parse` returns `none` rather than an error. -/
theorem C6_find_candidates_sorted_parse (L : Nat) (content : String) (hL : 1 ≤ L) :
    (find_candidates L content).Pairwise (fun a b => b.confidence ≤ a.confidence)
    ∧ (find_candidates L content).Perm (scanCandidates L content)
    ∧ (∀ q : ℚ, (find_candidates L content).filter (fun d => decide (d.confidence = q))
        = (scanCandidates L content).filter (fun d => decide (d.confidence = q)))
    ∧ parse L content
        = Option.map CodeCandidate.code (find_candidates L (clean_html content)).head?
    ∧ ((∀ c ∈ content.data, c.isDigit = false) →
        find_candidates L content = [] ∧ parse L content = none) := by
  refine ⟨List.sorted_insertionSort confGe _, List.perm_insertionSort confGe _,
    fun q => filter_insertionSort_conf q _, ?_, ?_⟩
  · unfold parse
    cases find_candidates L (clean_html content) <;> rfl
  · intro h
    have h3 : find_candidates L content = [] := by
      unfold find_candidates
      rw [scanCandidates_nil_of_no_digit L hL content h]
      rfl
    refine ⟨h3, ?_⟩
    unfold parse
    have h5 : find_candidates L (clean_html content) = [] := by
      unfold find_candidates
      rw [scanCandidates_nil_of_no_digit L hL _ (clean_html_no_digit content h)]
      rfl
    rw [h5]

/-- Witness for C6 at `L = 6` on digit-free content. -/
theorem C6_witness :
    find_candidates 6 "no digits here!" = [] ∧ parse 6 "no digits here!" = none :=
  (C6_find_candidates_sorted_parse 6 "no digits here!" (by norm_num)).2.2.2.2
    (by decide)

/-! ## C7 — the confidence formula -/

/-- A conditional bonus pulled out of the accumulator. -/
theorem ite_add_right (c : Bool) (v x : ℚ) :
    (if c = true then v + x else v) = v + (if c = true then x else 0) := by
  cases c <;> simp

/-- Two nested conditional guards collapse to their conjunction. -/
theorem ite_ite_add (o ab : Bool) (v x : ℚ) :
    (if o = true then (if ab = true then v + x else v) else v)
      = v + (if (o && ab) = true then x else 0) := by
  cases o <;> cases ab <;> simp

/-- The base score written as the source's conditional. -/
theorem baseConfidence_eq (ptype : PatternType) :
    baseConfidence ptype
      = if ptype = PatternType.continuous then (8 : ℚ)/10 else 9/10 := by
  cases ptype <;> simp [baseConfidence]

/-- Decomposition of `_calculate_confidence` into its base score and the two
bonus conditions as implemented. -/
theorem calculate_confidence_eq (code : String) (ptype : PatternType)
    (context : String) (position : Nat) :
    calculate_confidence code ptype context position
      = min (baseConfidence ptype
          + (if keywordWindowHit context position then (1 : ℚ)/10 else 0)
          + (if standaloneHit context position code.length then (1 : ℚ)/20 else 0)) 1 := by
  simp only [calculate_confidence]
  rw [ite_ite_add, ite_add_right, baseConfidence_eq]
  simp only [keywordWindowHit, standaloneHit]

/-- C7 counterexample: for the continuous match `123456` at position 2 of
`"\n:123456 \n"`, the code awards the standalone bonus (the two-character
window before the match contains a newline) although the match is
immediately preceded by `':'`, not whitespace: the source computes 0.85
where the claimed formula yields 0.8. -/
theorem C7_counterexample :
    calculate_confidence "123456" PatternType.continuous "\n:123456 \n" 2 = 17/20
    ∧ claimed_confidence "123456" PatternType.continuous "\n:123456 \n" 2 = 4/5
    ∧ calculate_confidence "123456" PatternType.continuous "\n:123456 \n" 2
        ≠ claimed_confidence "123456" PatternType.continuous "\n:123456 \n" 2 := by
  have h1 : calculate_confidence "123456" PatternType.continuous "\n:123456 \n" 2
      = 17/20 := by
    rw [calculate_confidence_eq]
    rw [show keywordWindowHit "\n:123456 \n" 2 = false from by decide,
        show standaloneHit "\n:123456 \n" 2 ("123456".length) = true from by decide]
    norm_num [baseConfidence]
  have h2 : claimed_confidence "123456" PatternType.continuous "\n:123456 \n" 2
      = 4/5 := by
    unfold claimed_confidence
    rw [show claimedKeywordHit "\n:123456 \n" 2 ("123456".length) = false from by decide,
        show claimedStandalone "\n:123456 \n" 2 ("123456".length) = false from by decide]
    norm_num [baseConfidence]
  refine ⟨h1, h2, ?_⟩
  rw [h1, h2]
  norm_num

/-- C7 amended: the confidence equals the base (0.8 continuous, 0.9
spaced/dashed) plus 0.1 if a keyword occurs in the lowered 100-character
window centred on the match *start* (`context[pos-50 : pos+50]`), plus 0.05
if the position is interior (`0 < pos < len(context) - len(code)`) and each
two-character window around the compacted code contains a newline or is
entirely whitespace (so for spaced/dashed matches the after-window falls
inside the raw match), capped at 1.0; it always lies in `[0.8, 1]`. -/
theorem C7_amended (code : String) (ptype : PatternType) (context : String)
    (position : Nat) :
    calculate_confidence code ptype context position
      = min (baseConfidence ptype
          + (if keywordWindowHit context position then (1 : ℚ)/10 else 0)
          + (if standaloneHit context position code.length then (1 : ℚ)/20 else 0)) 1
    ∧ calculate_confidence code ptype context position ≤ 1
    ∧ (8 : ℚ)/10 ≤ calculate_confidence code ptype context position := by
  refine ⟨calculate_confidence_eq code ptype context position, ?_, ?_⟩
  · rw [calculate_confidence_eq]
    exact min_le_right _ _
  · rw [calculate_confidence_eq]
    cases ptype <;> simp only [baseConfidence] <;> split_ifs <;> norm_num

end Trae
